import Mathlib

/-!
Verification of the argument-validation core of the duplicate-file-finder
package (`src/packages/duplicate-file-finder/src/lib.rs`).

The Rust code under verification is `Runner::from_args`, which validates a
process argument list against arity rules and a filesystem metadata check,
returning either a `Runner` configuration (holding the verified root
directory path) or one of four error kinds.

The filesystem is modelled as a partial map from path strings to metadata:
`fs p = none` means the metadata query (`Path::metadata`) fails for `p`
(nonexistent or inaccessible path), and `fs p = some m` means the query
succeeds with metadata `m`, where `m.is_dir` mirrors `Metadata::is_dir`.
Paths are kept as the raw strings: `Path::new(&args[1]).to_owned()` stores
the argument text verbatim in a `PathBuf`, with no canonicalization.
-/

namespace DuplicateFileFinder

/-- Filesystem metadata, as far as the code inspects it: the code only ever
calls `Metadata::is_dir`. -/
structure Metadata where
  is_dir : Bool
deriving DecidableEq, Repr

/-- A point-in-time filesystem state: for each path string, either the
metadata query fails (`none`) or returns metadata (`some m`). -/
def FileSystem : Type := String → Option Metadata

/-- The error type `FromArgsError` from the source, with its four variants
in source order. -/
inductive FromArgsError where
  | InsufficientArguments
  | TooManyArguments
  | InvalidFilePath
  | NotADirectory
deriving DecidableEq, Repr

/-- The `Runner` struct from the source: holds the validated root directory
path (stored verbatim as a `PathBuf`; here, the raw string). -/
structure Runner where
  root_dir : String
deriving DecidableEq, Repr

/-- Embedding of `Runner::from_args`. The Rust signature is
`fn from_args(args: Vec<String>) -> Result<Runner, FromArgsError>`; the
filesystem read performed by `root_dir.metadata()` is made explicit as the
`fs` parameter. The source checks `args.len() < 2`, then `args.len() > 2`,
then indexes `args[1]` (reached only with length exactly 2; `getD 1 ""`
is then the element at index 1) and queries its metadata. -/
def Runner.from_args (fs : FileSystem) (args : List String) :
    Except FromArgsError Runner :=
  let args_len := args.length
  if args_len < 2 then
    .error .InsufficientArguments
  else if args_len > 2 then
    .error .TooManyArguments
  else
    let root_dir := args.getD 1 ""
    match fs root_dir with
    | none => .error .InvalidFilePath
    | some r =>
      if r.is_dir then
        .ok { root_dir := root_dir }
      else
        .error .NotADirectory

/-- A filesystem operation, for tracing the effects of a call. The std
calls available to the source are modelled as reads (`stat`, the only one
the code performs) and writes (never performed). -/
inductive FsOp where
  | stat (path : String)
  | write (path : String)
deriving DecidableEq, Repr

/-- Whether a filesystem operation is a write. -/
def FsOp.isWrite : FsOp → Bool
  | .stat _ => false
  | .write _ => true

/-- `Runner.from_args` instrumented with the trace of filesystem operations
it issues, in order: the two arity branches return before touching the
filesystem; the remaining branches perform exactly the one
`root_dir.metadata()` call. -/
def Runner.from_args_traced (fs : FileSystem) (args : List String) :
    Except FromArgsError Runner × List FsOp :=
  let args_len := args.length
  if args_len < 2 then
    (.error .InsufficientArguments, [])
  else if args_len > 2 then
    (.error .TooManyArguments, [])
  else
    let root_dir := args.getD 1 ""
    match fs root_dir with
    | none => (.error .InvalidFilePath, [.stat root_dir])
    | some r =>
      if r.is_dir then
        (.ok { root_dir := root_dir }, [.stat root_dir])
      else
        (.error .NotADirectory, [.stat root_dir])

/-- Variant of `Runner.from_args` in which the index access to the second
argument carries an in-bounds proof (`args.get ⟨1, _⟩` instead of a
defaulted lookup), usable only when the length is exactly 2 — the shape
the Rust indexing `args[1]` must have to be panic-free. -/
def Runner.from_args_checked (fs : FileSystem) (args : List String)
    (h : args.length = 2) : Except FromArgsError Runner :=
  let root_dir := args.get ⟨1, by omega⟩
  match fs root_dir with
  | none => .error .InvalidFilePath
  | some r =>
    if r.is_dir then
      .ok { root_dir := root_dir }
    else
      .error .NotADirectory

/-- A concrete filesystem used to instantiate hypotheses at concrete
inputs: one existing directory, one existing regular file, everything else
nonexistent. -/
def sampleFs : FileSystem := fun p =>
  if p = "tests/data/with-no-duplicates" then some { is_dir := true }
  else if p = "tests/data/file1.txt" then some { is_dir := false }
  else none

/-- C1: for an argument list of length exactly 2 whose second element has
retrievable metadata marking it a directory, `from_args` succeeds and the
returned `root_dir` is the second element verbatim (no canonicalization,
normalization, or absolutization). -/
theorem from_args_ok_exact_path (fs : FileSystem) (a b : String)
    (m : Metadata) (hm : fs b = some m) (hd : m.is_dir = true) :
    Runner.from_args fs [a, b] = .ok { root_dir := b } := by
  simp [Runner.from_args, hm, hd]

theorem from_args_ok_exact_path_witness :
    sampleFs "tests/data/with-no-duplicates" = some { is_dir := true } ∧
    Runner.from_args sampleFs
        ["binary/path", "tests/data/with-no-duplicates"] =
      .ok { root_dir := "tests/data/with-no-duplicates" } :=
  ⟨rfl, from_args_ok_exact_path sampleFs "binary/path"
    "tests/data/with-no-duplicates" { is_dir := true } rfl rfl⟩

/-- C2: for every argument list of length 0 or 1, `from_args` returns
`InsufficientArguments`, regardless of the arguments' content and of the
filesystem state. -/
theorem from_args_insufficient (fs : FileSystem) (args : List String)
    (h : args.length ≤ 1) :
    Runner.from_args fs args = .error .InsufficientArguments := by
  have h2 : args.length < 2 := by omega
  simp [Runner.from_args, h2]

theorem from_args_insufficient_witness :
    ([] : List String).length ≤ 1 ∧
    Runner.from_args sampleFs [] = .error .InsufficientArguments :=
  ⟨by decide, from_args_insufficient sampleFs [] (by decide)⟩

/-- C3: for every argument list of length 3 or more, `from_args` returns
`TooManyArguments`, regardless of the content of the extra arguments and
of the filesystem state. -/
theorem from_args_too_many (fs : FileSystem) (args : List String)
    (h : 3 ≤ args.length) :
    Runner.from_args fs args = .error .TooManyArguments := by
  have h1 : ¬ args.length < 2 := by omega
  have h2 : args.length > 2 := by omega
  simp [Runner.from_args, h1, h2]

theorem from_args_too_many_witness :
    3 ≤ (["binary/path", "tests/data/with-no-duplicates",
          "tests/data/file1.txt"] : List String).length ∧
    Runner.from_args sampleFs
        ["binary/path", "tests/data/with-no-duplicates",
         "tests/data/file1.txt"] =
      .error .TooManyArguments :=
  ⟨by decide, from_args_too_many sampleFs
    ["binary/path", "tests/data/with-no-duplicates",
     "tests/data/file1.txt"] (by decide)⟩

/-- C4: for an argument list of length exactly 2 whose second element is a
path for which the metadata query fails (nonexistent or inaccessible),
`from_args` returns `InvalidFilePath`. -/
theorem from_args_invalid_path (fs : FileSystem) (a b : String)
    (hm : fs b = none) :
    Runner.from_args fs [a, b] = .error .InvalidFilePath := by
  simp [Runner.from_args, hm]

theorem from_args_invalid_path_witness :
    sampleFs "unknown" = none ∧
    Runner.from_args sampleFs ["binary/path", "unknown"] =
      .error .InvalidFilePath :=
  ⟨rfl, from_args_invalid_path sampleFs "binary/path" "unknown" rfl⟩

/-- C5: for an argument list of length exactly 2 whose second element has
retrievable metadata that does not mark it a directory, `from_args`
returns `NotADirectory`. -/
theorem from_args_not_a_directory (fs : FileSystem) (a b : String)
    (m : Metadata) (hm : fs b = some m) (hd : m.is_dir = false) :
    Runner.from_args fs [a, b] = .error .NotADirectory := by
  simp [Runner.from_args, hm, hd]

theorem from_args_not_a_directory_witness :
    sampleFs "tests/data/file1.txt" = some { is_dir := false } ∧
    Runner.from_args sampleFs ["binary/path", "tests/data/file1.txt"] =
      .error .NotADirectory :=
  ⟨rfl, from_args_not_a_directory sampleFs "binary/path"
    "tests/data/file1.txt" { is_dir := false } rfl rfl⟩

/-- C6: every `Runner` produced by a successful `from_args` call holds a
path whose metadata, on the filesystem state at construction time, was
retrievable and marked a directory; `from_args` is the only constructor of
`Runner` in the component, so no `Runner` exists whose stored path was not
a directory at construction time. -/
theorem runner_invariant_dir_at_construction (fs : FileSystem)
    (args : List String) (r : Runner)
    (h : Runner.from_args fs args = .ok r) :
    ∃ m : Metadata, fs r.root_dir = some m ∧ m.is_dir = true := by
  by_cases h1 : args.length < 2
  · simp [Runner.from_args, h1] at h
  · by_cases h2 : args.length > 2
    · simp [Runner.from_args, h1, h2] at h
    · have hlen : args.length = 2 := by omega
      obtain ⟨a, b, rfl⟩ : ∃ a b, args = [a, b] := by
        match args, hlen with
        | [a, b], _ => exact ⟨a, b, rfl⟩
      cases hm : fs b with
      | none => simp [Runner.from_args, hm] at h
      | some m =>
        cases hd : m.is_dir with
        | false => simp [Runner.from_args, hm, hd] at h
        | true =>
          simp [Runner.from_args, hm, hd] at h
          subst h
          exact ⟨m, hm, hd⟩

theorem runner_invariant_dir_at_construction_witness :
    Runner.from_args sampleFs
        ["binary/path", "tests/data/with-no-duplicates"] =
      .ok { root_dir := "tests/data/with-no-duplicates" } ∧
    ∃ m : Metadata,
      sampleFs (Runner.root_dir
          { root_dir := "tests/data/with-no-duplicates" }) = some m ∧
      m.is_dir = true :=
  ⟨rfl, runner_invariant_dir_at_construction sampleFs
    ["binary/path", "tests/data/with-no-duplicates"]
    { root_dir := "tests/data/with-no-duplicates" } rfl⟩

/-- C7: `from_args` is deterministic: two calls with equal argument lists
against the same (unchanged) filesystem state yield equal results — the
embedding is a pure function of the filesystem snapshot and the argument
list, with no other state. -/
theorem from_args_deterministic (fs : FileSystem)
    (args₁ args₂ : List String) (h : args₁ = args₂) :
    Runner.from_args fs args₁ = Runner.from_args fs args₂ := by
  rw [h]

theorem from_args_deterministic_witness :
    (["binary/path", "unknown"] : List String) = ["binary/path", "unknown"] ∧
    Runner.from_args sampleFs ["binary/path", "unknown"] =
      Runner.from_args sampleFs ["binary/path", "unknown"] :=
  ⟨rfl, from_args_deterministic sampleFs ["binary/path", "unknown"]
    ["binary/path", "unknown"] rfl⟩

/-- C8: `from_args` is read-only: the trace of filesystem operations a
call issues contains no write, has length at most 1 (a single
stat-equivalent metadata query at most), and the traced computation
returns the same result as `from_args`. -/
theorem from_args_read_only_single_stat (fs : FileSystem)
    (args : List String) :
    (Runner.from_args_traced fs args).2.all (fun op => !op.isWrite) = true ∧
    (Runner.from_args_traced fs args).2.length ≤ 1 ∧
    (Runner.from_args_traced fs args).1 = Runner.from_args fs args := by
  by_cases h1 : args.length < 2
  · simp [Runner.from_args_traced, Runner.from_args, h1]
  · by_cases h2 : args.length > 2
    · simp [Runner.from_args_traced, Runner.from_args, h1, h2]
    · have hlen : args.length = 2 := by omega
      obtain ⟨a, b, rfl⟩ : ∃ a b, args = [a, b] := by
        match args, hlen with
        | [a, b], _ => exact ⟨a, b, rfl⟩
      cases hm : fs b with
      | none =>
        simp [Runner.from_args_traced, Runner.from_args, hm, FsOp.isWrite]
      | some m =>
        cases hd : m.is_dir <;>
          simp [Runner.from_args_traced, Runner.from_args, hm, hd,
            FsOp.isWrite]

/-- C9: position 0 never influences the outcome: for two argument lists of
equal length that agree at every position except possibly position 0,
`from_args` returns equal results on the same filesystem state. -/
theorem from_args_ignores_arg0 (fs : FileSystem)
    (args₁ args₂ : List String) (hlen : args₁.length = args₂.length)
    (htail : args₁.tail = args₂.tail) :
    Runner.from_args fs args₁ = Runner.from_args fs args₂ := by
  cases args₁ with
  | nil =>
    cases args₂ with
    | nil => rfl
    | cons b bs => simp at hlen
  | cons a as =>
    cases args₂ with
    | nil => simp at hlen
    | cons b bs =>
      simp only [List.tail_cons] at htail
      subst htail
      rfl

theorem from_args_ignores_arg0_witness :
    (["binary/path", "unknown"] : List String).length =
      (["other/binary", "unknown"] : List String).length ∧
    (["binary/path", "unknown"] : List String).tail =
      (["other/binary", "unknown"] : List String).tail ∧
    Runner.from_args sampleFs ["binary/path", "unknown"] =
      Runner.from_args sampleFs ["other/binary", "unknown"] :=
  ⟨rfl, rfl, from_args_ignores_arg0 sampleFs ["binary/path", "unknown"]
    ["other/binary", "unknown"] rfl rfl⟩

/-- C10: `from_args` is total: on every argument list and filesystem state
it returns either a `Runner` or an error value (no panic); and whenever
the length is exactly 2 — the only case in which the index access to the
second argument is reached — it agrees with the variant whose index access
carries an in-bounds proof. -/
theorem from_args_total_in_bounds (fs : FileSystem) (args : List String) :
    ((∃ r, Runner.from_args fs args = .ok r) ∨
      (∃ e, Runner.from_args fs args = .error e)) ∧
    ∀ h : args.length = 2,
      Runner.from_args fs args = Runner.from_args_checked fs args h := by
  constructor
  · cases hr : Runner.from_args fs args with
    | ok r => exact Or.inl ⟨r, rfl⟩
    | error e => exact Or.inr ⟨e, rfl⟩
  · intro h
    match args, h with
    | [a, b], _ => rfl

theorem from_args_total_in_bounds_witness :
    ((∃ r, Runner.from_args sampleFs ["binary/path", "unknown"] = .ok r) ∨
      (∃ e, Runner.from_args sampleFs ["binary/path", "unknown"] =
        .error e)) ∧
    ∀ h : (["binary/path", "unknown"] : List String).length = 2,
      Runner.from_args sampleFs ["binary/path", "unknown"] =
        Runner.from_args_checked sampleFs ["binary/path", "unknown"] h :=
  from_args_total_in_bounds sampleFs ["binary/path", "unknown"]

end DuplicateFileFinder
